import Mathlib

/-!
Shallow embedding of the stremtui repository's stream-acquisition and
playback control logic (src/main.py, src/streaming.py, src/models.py),
together with theorems settling the specification claims about it.

Python strings are modelled by `String`, Python lists by `List`, raised
exceptions by `Except PyErr`, and the handful of filesystem/network
effects by explicit state passed in and returned.
-/

namespace Stremtui

/-- Exception classes raised by the embedded Python code. -/
inductive PyErr where
  | nameError
  | fileNotFoundError
  | keyError
  | indexError
deriving DecidableEq

instance instDecEqExcept {ε α : Type} [DecidableEq ε] [DecidableEq α] :
    DecidableEq (Except ε α)
  | Except.ok a, Except.ok b =>
    if h : a = b then .isTrue (congrArg Except.ok h)
    else .isFalse fun hc => h (Except.ok.inj hc)
  | Except.ok _, Except.error _ => .isFalse fun hc => Except.noConfusion hc
  | Except.error _, Except.ok _ => .isFalse fun hc => Except.noConfusion hc
  | Except.error a, Except.error b =>
    if h : a = b then .isTrue (congrArg Except.error h)
    else .isFalse fun hc => h (Except.error.inj hc)

/-! ### Python string primitives used by the source

All of them work on the character list of the string, so that every closed
computation in this file reduces inside the kernel. -/

/-- Whether the first character list starts with the second. -/
def charsStartWith : List Char → List Char → Bool
  | _, [] => true
  | [], _ :: _ => false
  | c :: cs, p :: ps => c == p && charsStartWith cs ps

/-- Python str.startswith. -/
def pyStartsWith (s tag : String) : Bool :=
  charsStartWith s.toList tag.toList

/-- Python str.removeprefix as used in models.py line 121: drops the given
leading string when the string starts with it, otherwise returns the string
unchanged. -/
def dropLeading (s tag : String) : String :=
  if pyStartsWith s tag then String.mk (s.toList.drop tag.toList.length) else s

/-- Python str.lstrip with a character-set argument, as used in streaming.py
line 121 and main.py line 113: removes every leading character that appears
anywhere in the cutset string (not the cutset as a unit). -/
def pyLstrip (s cutset : String) : String :=
  String.mk (s.toList.dropWhile (fun c => cutset.toList.contains c))

/-- Python str.strip with no argument: removes leading and trailing
whitespace. -/
def pyStrip (s : String) : String :=
  String.mk (((s.toList.dropWhile Char.isWhitespace).reverse.dropWhile Char.isWhitespace).reverse)

/-- Splitting a character list at every occurrence of a separator; the
result always has one more group than there are separators. -/
def splitChar (sep : Char) : List Char → List (List Char)
  | [] => [[]]
  | c :: rest =>
    match splitChar sep rest with
    | [] => [[]]
    | grp :: grps => if c == sep then [] :: grp :: grps else (c :: grp) :: grps

/-- Joining character-list groups with a separator character between. -/
def joinWith (sep : Char) : List (List Char) → List Char
  | [] => []
  | [grp] => grp
  | grp :: grps => grp ++ sep :: joinWith sep grps

/-- Python str.splitlines for newline-separated text: splits on newline
characters, without a trailing empty entry when the text ends in a newline,
and with no entry at all for the empty string. -/
def pySplitlines (s : String) : List String :=
  if s.toList = [] then []
  else
    let parts := (splitChar '\n' s.toList).map String.mk
    if s.toList.getLast? == some '\n' then parts.dropLast else parts

/-- Grouping a character list into the maximal runs free of the predicate,
dropping the separator characters; empty runs included. -/
def splitPred (p : Char → Bool) : List Char → List (List Char)
  | [] => [[]]
  | c :: rest =>
    match splitPred p rest with
    | [] => [[]]
    | grp :: grps => if p c then [] :: grp :: grps else (c :: grp) :: grps

/-- Python str.split with no argument: splits on whitespace, producing no
empty entries. -/
def pySplitWs (s : String) : List String :=
  ((splitPred Char.isWhitespace s.toList).map String.mk).filter (fun t => t ≠ "")

/-- Python file.readline followed by file.read: the first line (without its
newline) paired with everything after that newline. -/
def readlineSplit (content : String) : String × String :=
  match splitChar '\n' content.toList with
  | [] => ("", "")
  | line :: rest => (String.mk line, String.mk (joinWith '\n' rest))

/-- Python pathlib.Path.suffix: the final extension including its dot, empty
when the name has no dot or only a leading dot. -/
def pySuffix (name : String) : String :=
  let dots := (List.range name.length).filter (fun i => name.toList.getD i ' ' == '.')
  match dots.getLast? with
  | none => ""
  | some 0 => ""
  | some i => String.mk (name.toList.drop i)

/-! ### Stream.normalize_sources (src/models.py lines 115-124) -/

/-- Stream.normalize_sources from src/models.py: walks the source list
appending, for each entry, the entry minus its leading "tracker:" when it
starts with "tracker:", nothing when it starts with "dht:", and the entry
itself otherwise. -/
def normalize_sources (sources : List String) : List String :=
  sources.foldl (fun normalized source =>
    if pyStartsWith source "tracker:" then normalized ++ [dropLeading source "tracker:"]
    else if pyStartsWith source "dht:" then normalized
    else normalized ++ [source]) []

/-! ### File selection (src/main.py lines 128-151) -/

/-- The first index whose file name equals the hint, as found by the
for-loop with break in main.py lines 132-137; none when no name matches. -/
def findMatch (hint : String) : List String → Option Nat
  | [] => none
  | f :: fs => if f == hint then some 0 else (findMatch hint fs).map (· + 1)

/-- The priority list built by main.py lines 131-137: zeros of the same
length as the file list, with a one written at the first matching index when
there is one. -/
def selectionPriorities (files : List String) (hint : String) : List Nat :=
  match findMatch hint files with
  | some i => (List.replicate files.length 0).set i 1
  | none => List.replicate files.length 0

/-- Outcome of the file-selection phase: the value computed (wanted index
and buffer-file extension) or the exception raised, together with the list
of priority arrays passed to the engine's prioritize_files. -/
structure SelectionOutcome where
  result : Except PyErr (Nat × String)
  prioritizeCalls : List (List Nat)
deriving DecidableEq

/-- The file-selection phase of main.py lines 128-141: when some file name
equals the hint, the wanted index and extension are bound, the priority list
gets a one at that index and is passed to prioritize_files; when no name
matches, line 139 reads the never-assigned wanted_file_extension and raises
NameError before prioritize_files is ever called. -/
def fileSelection (files : List String) (hint : String) : SelectionOutcome :=
  match findMatch hint files with
  | some i =>
    { result := .ok (i, pySuffix (files.getD i ""))
      prioritizeCalls := [selectionPriorities files hint] }
  | none => { result := .error .nameError, prioritizeCalls := [] }

/-! ### Buffering gate (src/main.py lines 144-146, src/streaming.py lines 153-157) -/

/-- The fixed buffering threshold 1024 * 1024 * 50 of main.py line 144:
an absolute byte count of 50 MiB. -/
def BUFFER_THRESHOLD : Nat := 1024 * 1024 * 50

/-- The buffering loop of main.py lines 144-145, applied to the successive
total_download values observed at each poll tick: the loop exits, and the
player is launched, at the first tick whose value is at least the threshold;
none means every listed value was below it and the loop is still polling. -/
def bufferingLaunchTick (polls : List Nat) : Option Nat :=
  polls.findIdx? (fun b => decide (BUFFER_THRESHOLD ≤ b))

/-! ### Tracker cache (src/streaming.py lines 28-60, src/main.py lines 34-62) -/

/-- Exception class a failed tracker-list fetch raises. The except clause in
both revisions names HTTPError imported from curl_cffi.requests.exceptions;
a non-2xx response on the httpx client of streaming.py surfaces as httpx's
HTTPStatusError, a separate hierarchy, and timeouts or connection failures
raise further classes of their own in either client. -/
inductive FetchErrorClass where
  | curlHttpError
  | httpStatusError
  | connectError
deriving DecidableEq

/-- Outcome the tracker-list network fetch would have: the response text, or
the exception class it raises. -/
inductive FetchResult where
  | ok (text : String)
  | error (e : FetchErrorClass)
deriving DecidableEq

/-- Whether an exception is an instance of the HTTPError class named in the
except clause (curl_cffi.requests.exceptions.HTTPError): only that class is
caught; httpx's HTTPStatusError and the timeout or connection error classes
are not subclasses of it and escape the handler. -/
def isCurlHTTPError : FetchErrorClass → Bool
  | .curlHttpError => true
  | .httpStatusError => false
  | .connectError => false

/-- The exception classes a failed fetch on the httpx AsyncClient used by
streaming.py can raise: HTTPStatusError from raise_for_status on a non-2xx
response, and connection or timeout errors; httpx never raises curl_cffi's
HTTPError. -/
def httpxRaises : FetchErrorClass → Bool
  | .curlHttpError => false
  | .httpStatusError => true
  | .connectError => true

/-- Result of one get_bootstrap_trackers run: the returned list or the fetch
exception that propagated to the caller, the cache file content afterwards,
and whether a network fetch was attempted. -/
structure TrackerRun where
  result : Except FetchErrorClass (List String)
  fileAfter : Option String
  fetchAttempted : Bool
deriving DecidableEq

/-- Writing to a file opened r+ after seeking to position zero, with no
truncation, as streaming.py lines 47-48 and main.py lines 49-50 do: the new
text replaces the old character for character, and old content past the end
of the new text survives. -/
def overwriteNoTruncate (old new : String) : String :=
  new ++ String.mk (old.toList.drop new.toList.length)

/-- get_bootstrap_trackers from src/streaming.py lines 28-60 (the same logic
appears inline in main.py lines 34-62), over an explicit environment: the
cache file content (none when the file does not exist), the string for
today's date, and the outcome the network fetch would have. When the file
exists, its first line (stripped) is compared with today; on a match the
remaining lines are returned with no fetch; on a mismatch a fetch is tried,
and a fetch failure is caught — yielding the cached lines — only when its
exception is an instance of the curl_cffi HTTPError class named in the
except clause, every other exception class propagating to the caller;
a successful fetch overwrites the file from position zero and returns the
whitespace-split fetched text. When the file does not exist it is created
empty, and the fetch result is either written and returned, degraded to the
empty list on a caught HTTPError, or propagated when uncaught. -/
def get_bootstrap_trackers (cacheFile : Option String) (todayDateStr : String)
    (fetch : FetchResult) : TrackerRun :=
  match cacheFile with
  | some content =>
    let cacheDate := pyStrip (readlineSplit content).1
    let cachedTrackers := pySplitlines (readlineSplit content).2
    if cacheDate = todayDateStr then
      { result := .ok cachedTrackers, fileAfter := some content, fetchAttempted := false }
    else
      match fetch with
      | .error e =>
        if isCurlHTTPError e then
          { result := .ok cachedTrackers, fileAfter := some content, fetchAttempted := true }
        else
          { result := .error e, fileAfter := some content, fetchAttempted := true }
      | .ok rawTrackers =>
        { result := .ok (pySplitWs rawTrackers)
          fileAfter := some (overwriteNoTruncate content (todayDateStr ++ "\n" ++ rawTrackers))
          fetchAttempted := true }
  | none =>
    match fetch with
    | .error e =>
      if isCurlHTTPError e then
        { result := .ok [], fileAfter := some "", fetchAttempted := true }
      else
        { result := .error e, fileAfter := some "", fetchAttempted := true }
    | .ok rawTrackers =>
      { result := .ok (pySplitWs rawTrackers)
        fileAfter := some (todayDateStr ++ "\n" ++ rawTrackers)
        fetchAttempted := true }

/-! ### Buffer-file deletion (src/main.py line 151, src/streaming.py lines 146-147) -/

/-- Python pathlib.Path.unlink with no missing_ok argument: removes the
file, raising FileNotFoundError when the file does not exist. The Bool is
the file's existence before, respectively after, the call. -/
def pathUnlink (fileExists : Bool) : Except PyErr Bool :=
  if fileExists then .ok false else .error .fileNotFoundError

/-- The stale-buffer removal of streaming.py lines 146-147: unlink guarded
by an existence check, so nothing happens when the file is absent. -/
def guardedBufferUnlink (fileExists : Bool) : Except PyErr Bool :=
  if fileExists then pathUnlink fileExists else .ok fileExists

/-- The buffer-file deletion performed by the cleanup step at main.py line
151: an unguarded unlink. -/
def cleanupBufferDelete (fileExists : Bool) : Except PyErr Bool :=
  pathUnlink fileExists

/-! ### Episode.parse_coordinate (src/models.py lines 43-49) -/

/-- A Python dict key as they occur here: a plain string, or a two-string
tuple. -/
inductive PyKey where
  | str (s : String)
  | pair (a b : String)
deriving DecidableEq

/-- A dict-shaped record with string values. -/
abbrev PyDict := List (PyKey × String)

/-- Python `k in data` membership on a dict: true when k is a key. -/
def dictContains (d : PyDict) (k : PyKey) : Bool :=
  d.any (fun kv => kv.1 == k)

/-- Python subscript read on a dict: the value at the key, or KeyError. -/
def dictGet (d : PyDict) (k : PyKey) : Except PyErr String :=
  match d.find? (fun kv => kv.1 == k) with
  | some kv => .ok kv.2
  | none => .error .keyError

/-- Python subscript assignment on a dict: replace the value at an existing
key, or bind a fresh key. -/
def dictSet (d : PyDict) (k : PyKey) (v : String) : PyDict :=
  if dictContains d k then d.map (fun kv => if kv.1 == k then (kv.1, v) else kv)
  else d ++ [(k, v)]

/-- Episode.parse_coordinate from src/models.py lines 43-49 on a dict-shaped
record: the guard tests whether the two-string tuple (season, episode) is
itself a key of the dict — that is what the Python membership test with a
tuple on the left does — and only when that tuple key is present is
coordinate bound to data at season, a colon, and data at episode. -/
def parse_coordinate (data : PyDict) : Except PyErr PyDict :=
  if dictContains data (.pair "season" "episode") then
    match dictGet data (.str "season"), dictGet data (.str "episode") with
    | .ok s, .ok e => .ok (dictSet data (.str "coordinate") (s ++ ":" ++ e))
    | .error e, _ => .error e
    | _, .error e => .error e
  else
    .ok data

/-! ### Tracker assembly in start_download (src/streaming.py lines 115-131) -/

/-- A store of Python list objects: each list value lives at an index, and
a variable holding a Python list is an index (a ref) into the store. -/
abbrev ListStore := List (List String)

/-- The list object a ref designates. -/
def storeGet (st : ListStore) (r : Nat) : List String := st.getD r []

/-- Python list.copy bound to a fresh variable: allocates a new list object
with the same elements and hands back its ref. -/
def storeCopy (st : ListStore) (r : Nat) : ListStore × Nat :=
  (st ++ [storeGet st r], st.length)

/-- Python list.append through a ref: mutates that list object in place. -/
def storeAppend (st : ListStore) (r : Nat) (x : String) : ListStore :=
  st.set r (storeGet st r ++ [x])

/-- The tracker-assembly step of start_download, src/streaming.py lines
118-123: copy the session's bootstrap tracker list into a fresh object, then
for each source append the source lstripped of leading tracker-set
characters when it starts with tracker:, and append the source itself
whenever it does not start with dht:. Returns the store after the loop
together with the ref of the per-torrent list handed to the engine. -/
def buildTorrentTrackers (st : ListStore) (bootstrapRef : Nat)
    (sources : List String) : ListStore × Nat :=
  let alloc := storeCopy st bootstrapRef
  (sources.foldl (fun acc source =>
      let acc1 :=
        if pyStartsWith source "tracker:" then storeAppend acc alloc.2 (pyLstrip source "tracker:")
        else acc
      if pyStartsWith source "dht:" then acc1 else storeAppend acc1 alloc.2 source)
    alloc.1, alloc.2)

/-! ### Seasons grouping (src/models.py lines 52-87) -/

/-- A raw video record as the grouping loop sees it: its season number and
an opaque tag standing for the rest of the record. -/
structure RawVideo where
  season : Int
  tag : String
deriving DecidableEq

/-- Python index resolution for a list of the given length: nonnegative
indexes address from the front, negative indexes from the back, anything
else is an IndexError. -/
def pyIndex (len : Nat) (i : Int) : Option Nat :=
  if 0 ≤ i then (if i < (len : Int) then some i.toNat else none)
  else (if 0 ≤ i + (len : Int) then some (i + (len : Int)).toNat else none)

/-- The gap-filling while loop of models.py lines 71-72: append empty
buckets until the list is long enough to hold index season. -/
def gapFill (seasons : List (List RawVideo)) (season : Int) : List (List RawVideo) :=
  seasons ++ List.replicate (season + 1 - (seasons.length : Int)).toNat []

/-- The dict built by Seasons.filter_videos_into_numbered_and_specials: the
specials bucket, the numbered season buckets, and the has_specials flag. -/
structure SeasonsAcc where
  specials : List RawVideo
  seasons : List (List RawVideo)
  hasSpecials : Bool
deriving DecidableEq

/-- One iteration of the loop in models.py lines 64-74: season is the
record's season minus zero; minus one goes to specials and flips
has_specials; otherwise the bucket list is gap-filled and the video appended
to the bucket the season indexes (IndexError when the season resolves to no
bucket, which only negative seasons below minus one can cause). -/
def filterStep (acc : SeasonsAcc) (video : RawVideo) : Except PyErr SeasonsAcc :=
  let season := video.season - 0
  if season = -1 then
    .ok { specials := acc.specials ++ [video], seasons := acc.seasons, hasSpecials := true }
  else
    let filled := gapFill acc.seasons season
    match pyIndex filled.length season with
    | none => .error .indexError
    | some i => .ok { acc with seasons := filled.set i (filled.getD i [] ++ [video]) }

/-- The loop of models.py lines 64-74 over the whole video list. -/
def filterVideosAux : List RawVideo → SeasonsAcc → Except PyErr SeasonsAcc
  | [], acc => .ok acc
  | v :: vs, acc =>
    match filterStep acc v with
    | .error e => .error e
    | .ok acc1 => filterVideosAux vs acc1

/-- Seasons.filter_videos_into_numbered_and_specials from src/models.py
lines 57-78, starting from empty specials, no buckets, and has_specials
false. -/
def filter_videos_into_numbered_and_specials (videos : List RawVideo) :
    Except PyErr SeasonsAcc :=
  filterVideosAux videos { specials := [], seasons := [], hasSpecials := false }

/-! ### Helper lemmas -/

theorem normalize_foldl_eq_filterMap (sources acc : List String) :
    sources.foldl (fun normalized source =>
      if pyStartsWith source "tracker:" then normalized ++ [dropLeading source "tracker:"]
      else if pyStartsWith source "dht:" then normalized
      else normalized ++ [source]) acc
    = acc ++ sources.filterMap (fun source =>
        if pyStartsWith source "tracker:" then some (dropLeading source "tracker:")
        else if pyStartsWith source "dht:" then none
        else some source) := by
  induction sources generalizing acc with
  | nil => simp
  | cons s ss ih =>
    simp only [List.foldl_cons, List.filterMap_cons]
    by_cases h1 : pyStartsWith s "tracker:" = true
    · simp [h1, ih]
    · by_cases h2 : pyStartsWith s "dht:" = true <;> simp [h1, h2, ih]

/-! ### Claim theorems -/

/-- C4: stream source normalization maps every entry starting with tracker:
to exactly one output entry with that leading tag removed, drops every entry
starting with dht:, and passes every other entry through unchanged, in input
order with nothing else introduced — it is the filterMap of that per-entry
classification — and on the spec's example it yields the two expected
entries. -/
theorem normalize_sources_classifies :
    (∀ sources : List String, normalize_sources sources
      = sources.filterMap (fun source =>
          if pyStartsWith source "tracker:" then some (dropLeading source "tracker:")
          else if pyStartsWith source "dht:" then none
          else some source)) ∧
    normalize_sources ["tracker:udp://a", "dht:x", "udp://peer1"] = ["udp://a", "udp://peer1"] := by
  refine ⟨fun sources => ?_, by decide⟩
  simpa using normalize_foldl_eq_filterMap sources []

/-- C2: with files a.mkv and b.srt and the hint c.avi matching neither, the
file-selection phase of main.py raises NameError — line 139 reads the
never-assigned wanted_file_extension — instead of reporting a FileNotFound
error, and no prioritize_files call is made. -/
theorem fileSelection_no_match_raises_nameError :
    fileSelection ["a.mkv", "b.srt"] "c.avi"
      = { result := .error .nameError, prioritizeCalls := [] } := by decide

/-- C7: refreshing over previous content that is longer than the new date
line plus fetched list leaves a residue: the write from position zero on the
r+ handle never truncates, so the file does not equal the date line followed
by the fetched tracker list. -/
theorem trackerCache_overwrite_leaves_residue :
    (get_bootstrap_trackers (some "2026-10-11\nudp://tracker1\nudp://tracker2")
        "2026-10-12" (.ok "udp://a")).fileAfter
      = some "2026-10-12\nudp://aracker1\nudp://tracker2" ∧
    (get_bootstrap_trackers (some "2026-10-11\nudp://tracker1\nudp://tracker2")
        "2026-10-12" (.ok "udp://a")).fileAfter
      ≠ some ("2026-10-12" ++ "\n" ++ "udp://a") := by decide

/-- C8 counterexample: the cleanup of main.py line 151 deletes the buffer
file with an unguarded unlink, which raises FileNotFoundError when the file
no longer exists, so running the cleanup again after the file is gone does
raise. -/
theorem cleanupBufferDelete_absent_raises :
    cleanupBufferDelete false = .error .fileNotFoundError := by decide

/-- C8 amended: the stale-buffer removal in start_download is guarded by an
existence check and never raises — in particular it is a no-op when the file
is already absent — while the unguarded cleanup deletion of main.py succeeds
only when the file exists and raises FileNotFoundError when it does not. -/
theorem bufferUnlink_guarded_is_noop :
    (∀ fileExists : Bool, guardedBufferUnlink fileExists = .ok false) ∧
    cleanupBufferDelete true = .ok false ∧
    cleanupBufferDelete false = .error .fileNotFoundError := by
  refine ⟨fun fileExists => ?_, by decide, by decide⟩
  cases fileExists <;> decide

/-- C9: a raw episode record carrying both season and episode under plain
string keys is returned unchanged by parse_coordinate — the guard looks for
the tuple key (season, episode), which such a record does not have, so no
coordinate field is derived (and Episode validation then fails for want of
coordinate); the branch would fire only for a record carrying that tuple
itself as a key. -/
theorem parse_coordinate_misses_plain_keys :
    parse_coordinate [(.str "season", "1"), (.str "episode", "2"), (.str "name", "Pilot")]
      = .ok [(.str "season", "1"), (.str "episode", "2"), (.str "name", "Pilot")] ∧
    dictContains [(.str "season", "1"), (.str "episode", "2"), (.str "name", "Pilot")]
      (.str "coordinate") = false ∧
    parse_coordinate [(.pair "season" "episode", "x"), (.str "season", "1"), (.str "episode", "2")]
      = .ok [(.pair "season" "episode", "x"), (.str "season", "1"), (.str "episode", "2"),
             (.str "coordinate", "1:2")] := by decide

theorem findIdx?_spec {α : Type} (p : α → Bool) :
    ∀ (xs : List α) (s i : Nat), xs.findIdx? p s = some i →
      s ≤ i ∧ (∃ x, xs[i - s]? = some x ∧ p x = true) ∧
        ∀ j y, j < i - s → xs[j]? = some y → p y = false := by
  intro xs
  induction xs with
  | nil => intro s i h; simp [List.findIdx?] at h
  | cons x xs ih =>
    intro s i h
    rw [List.findIdx?_cons] at h
    by_cases hp : p x = true
    · rw [if_pos hp] at h
      obtain rfl : s = i := Option.some.inj h
      refine ⟨Nat.le_refl s, ⟨x, ?_, hp⟩, ?_⟩
      · simp [Nat.sub_self]
      · intro j y hj _
        omega
    · rw [if_neg hp] at h
      obtain ⟨hs, ⟨y, hy, hpy⟩, hbelow⟩ := ih (s + 1) i h
      refine ⟨Nat.le_of_succ_le hs, ⟨y, ?_, hpy⟩, ?_⟩
      · have hsub : i - s = (i - (s + 1)) + 1 := by omega
        rw [hsub]
        simpa using hy
      · intro j z hj hz
        cases j with
        | zero =>
          have hxz : x = z := by simpa using hz
          subst hxz
          simpa using hp
        | succ j2 =>
          have hj2 : j2 < i - (s + 1) := by omega
          exact hbelow j2 z hj2 (by simpa using hz)

/-- C5: whenever the buffering loop exits at a tick and launches the player,
every earlier polled downloaded-byte count was strictly below the fixed
absolute threshold of 52428800 bytes, and the count at the exit tick is at
least the threshold — the launch happens on the first boundary-inclusive
crossing and never while the count is below it. -/
theorem buffering_gate (polls : List Nat) (i : Nat)
    (h : bufferingLaunchTick polls = some i) :
    (∀ j b, j < i → polls[j]? = some b → b < BUFFER_THRESHOLD) ∧
    ∃ b, polls[i]? = some b ∧ BUFFER_THRESHOLD ≤ b := by
  obtain ⟨-, ⟨b, hb, hpb⟩, hbelow⟩ := findIdx?_spec _ polls 0 i h
  simp only [Nat.sub_zero] at hb hbelow
  refine ⟨fun j b2 hj hjb => ?_, b, hb, of_decide_eq_true hpb⟩
  have hfalse := hbelow j b2 hj hjb
  simpa using of_decide_eq_false hfalse

theorem buffering_gate_witness :
    bufferingLaunchTick [0, 52428799, 52428800, 99] = some 2 ∧
    BUFFER_THRESHOLD = 52428800 ∧
    ((∀ j b, j < 2 → [0, 52428799, 52428800, 99][j]? = some b → b < BUFFER_THRESHOLD) ∧
     ∃ b, [0, 52428799, 52428800, 99][2]? = some b ∧ BUFFER_THRESHOLD ≤ b) :=
  ⟨by decide, by decide, buffering_gate [0, 52428799, 52428800, 99] 2 (by decide)⟩

theorem findMatch_of_mem (hint : String) :
    ∀ files : List String, hint ∈ files →
      ∃ i, findMatch hint files = some i ∧ i < files.length ∧ files.getD i "" = hint := by
  intro files
  induction files with
  | nil => intro h; cases h
  | cons f fs ih =>
    intro hmem
    by_cases hf : (f == hint) = true
    · refine ⟨0, by simp [findMatch, hf], Nat.succ_pos _, ?_⟩
      simpa using beq_iff_eq.mp hf
    · have hmem2 : hint ∈ fs := by
        cases hmem with
        | head => exact absurd (by simp) hf
        | tail _ h2 => exact h2
      obtain ⟨i, hi, hlen, hgetd⟩ := ih hmem2
      refine ⟨i + 1, by simp [findMatch, hf, hi], by simpa using hlen, by simpa using hgetd⟩

/-- C1: when the stream filename hint names one of the resolved files, the
file-selection phase matches the first file with that name, and the one
priority array passed to prioritize_files has the same length as the file
list, a one at the matched index, and a zero at every other index. -/
theorem fileSelection_sets_one_hot (files : List String) (hint : String)
    (hmem : hint ∈ files) :
    ∃ i, findMatch hint files = some i ∧ i < files.length ∧ files.getD i "" = hint ∧
      (fileSelection files hint).prioritizeCalls = [selectionPriorities files hint] ∧
      (selectionPriorities files hint).length = files.length ∧
      (selectionPriorities files hint).getD i 0 = 1 ∧
      ∀ j, j < files.length → j ≠ i → (selectionPriorities files hint).getD j 0 = 0 := by
  obtain ⟨i, hi, hlen, hname⟩ := findMatch_of_mem hint files hmem
  refine ⟨i, hi, hlen, hname, ?_, ?_, ?_, ?_⟩
  · simp [fileSelection, hi]
  · simp [selectionPriorities, hi]
  · simp only [selectionPriorities, hi, List.getD_eq_getElem?_getD]
    rw [List.getElem?_set_self (by simpa using hlen)]
    rfl
  · intro j hj hne
    simp only [selectionPriorities, hi, List.getD_eq_getElem?_getD]
    rw [List.getElem?_set_ne (Ne.symm hne)]
    simp [List.getElem?_replicate_of_lt hj]

theorem fileSelection_sets_one_hot_witness :
    "b.srt" ∈ ["a.mkv", "b.srt"] ∧
    selectionPriorities ["a.mkv", "b.srt"] "b.srt" = [0, 1] ∧
    (∃ i, findMatch "b.srt" ["a.mkv", "b.srt"] = some i ∧
      i < (["a.mkv", "b.srt"] : List String).length ∧
      (["a.mkv", "b.srt"] : List String).getD i "" = "b.srt" ∧
      (fileSelection ["a.mkv", "b.srt"] "b.srt").prioritizeCalls
        = [selectionPriorities ["a.mkv", "b.srt"] "b.srt"] ∧
      (selectionPriorities ["a.mkv", "b.srt"] "b.srt").length
        = (["a.mkv", "b.srt"] : List String).length ∧
      (selectionPriorities ["a.mkv", "b.srt"] "b.srt").getD i 0 = 1 ∧
      ∀ j, j < (["a.mkv", "b.srt"] : List String).length → j ≠ i →
        (selectionPriorities ["a.mkv", "b.srt"] "b.srt").getD j 0 = 0) :=
  ⟨by decide, by decide, fileSelection_sets_one_hot ["a.mkv", "b.srt"] "b.srt" (by decide)⟩

theorem storeGet_storeAppend_ne (st : ListStore) (r r2 : Nat) (x : String) (h : r ≠ r2) :
    storeGet (storeAppend st r2 x) r = storeGet st r := by
  unfold storeGet storeAppend
  simp [List.getD_eq_getElem?_getD, List.getElem?_set_ne (Ne.symm h)]

theorem storeGet_storeAppend_self (st : ListStore) (r2 : Nat) (x : String)
    (h : r2 < st.length) :
    storeGet (storeAppend st r2 x) r2 = storeGet st r2 ++ [x] := by
  simp [storeGet, storeAppend, List.getD_eq_getElem?_getD, List.getElem?_set_self h]

theorem trackerLoop_preserves (r2 : Nat) :
    ∀ (sources : List String) (st : ListStore) (r : Nat), r ≠ r2 →
      storeGet (sources.foldl (fun acc source =>
          let acc1 :=
            if pyStartsWith source "tracker:" then storeAppend acc r2 (pyLstrip source "tracker:")
            else acc
          if pyStartsWith source "dht:" then acc1 else storeAppend acc1 r2 source) st) r
        = storeGet st r := by
  intro sources
  induction sources with
  | nil => intro st r h; rfl
  | cons s ss ih =>
    intro st r h
    simp only [List.foldl_cons]
    rw [ih _ _ h]
    by_cases h1 : pyStartsWith s "tracker:" = true <;>
      by_cases h2 : pyStartsWith s "dht:" = true <;>
        simp [h1, h2, storeGet_storeAppend_ne _ _ _ _ h]

theorem trackerLoop_extends (r2 : Nat) :
    ∀ (sources : List String) (st : ListStore), r2 < st.length →
      ((sources.foldl (fun acc source =>
          let acc1 :=
            if pyStartsWith source "tracker:" then storeAppend acc r2 (pyLstrip source "tracker:")
            else acc
          if pyStartsWith source "dht:" then acc1 else storeAppend acc1 r2 source) st).length
        = st.length) ∧
      ∃ tail, storeGet (sources.foldl (fun acc source =>
          let acc1 :=
            if pyStartsWith source "tracker:" then storeAppend acc r2 (pyLstrip source "tracker:")
            else acc
          if pyStartsWith source "dht:" then acc1 else storeAppend acc1 r2 source) st) r2
        = storeGet st r2 ++ tail := by
  intro sources
  induction sources with
  | nil => exact fun st h => ⟨rfl, [], (List.append_nil _).symm⟩
  | cons s ss ih =>
    intro st h
    simp only [List.foldl_cons]
    have hstep : ∀ st2 : ListStore, st2.length = st.length →
        ∃ tail2, (if pyStartsWith s "dht:" = true then
            (if pyStartsWith s "tracker:" = true then
              storeAppend st2 r2 (pyLstrip s "tracker:") else st2)
          else storeAppend (if pyStartsWith s "tracker:" = true then
              storeAppend st2 r2 (pyLstrip s "tracker:") else st2) r2 s).length = st.length ∧
          storeGet (if pyStartsWith s "dht:" = true then
            (if pyStartsWith s "tracker:" = true then
              storeAppend st2 r2 (pyLstrip s "tracker:") else st2)
          else storeAppend (if pyStartsWith s "tracker:" = true then
              storeAppend st2 r2 (pyLstrip s "tracker:") else st2) r2 s) r2
            = storeGet st2 r2 ++ tail2 := by
      intro st2 hlen2
      have hr2 : r2 < st2.length := hlen2 ▸ h
      by_cases h1 : pyStartsWith s "tracker:" = true <;>
        by_cases h2 : pyStartsWith s "dht:" = true
      · exact ⟨[pyLstrip s "tracker:"], by simp [h1, h2, storeAppend, hlen2],
          by simp [h1, h2, storeGet_storeAppend_self _ _ _ hr2]⟩
      · refine ⟨[pyLstrip s "tracker:", s], by simp [h1, h2, storeAppend, hlen2], ?_⟩
        have hr2b : r2 < (storeAppend st2 r2 (pyLstrip s "tracker:")).length := by
          simpa [storeAppend] using hr2
        simp [h1, h2, storeGet_storeAppend_self _ _ _ hr2b,
          storeGet_storeAppend_self _ _ _ hr2]
      · exact ⟨[], by simp [h1, h2, hlen2], by simp [h1, h2]⟩
      · exact ⟨[s], by simp [h1, h2, storeAppend, hlen2],
          by simp [h1, h2, storeGet_storeAppend_self _ _ _ hr2]⟩
    obtain ⟨tail2, hlen2, hget2⟩ := hstep st rfl
    obtain ⟨hlenrest, tail3, hget3⟩ := ih _ (hlen2 ▸ h)
    refine ⟨by rw [hlenrest, hlen2], tail2 ++ tail3, ?_⟩
    calc _ = storeGet _ r2 ++ tail3 := by
            convert hget3 using 3
      _ = (storeGet st r2 ++ tail2) ++ tail3 := by rw [hget2]
      _ = storeGet st r2 ++ (tail2 ++ tail3) := List.append_assoc _ _ _

/-- C10: the tracker-assembly step of start_download never mutates the
session's shared bootstrap tracker list — after the call the store still
holds the same list at the bootstrap ref — and the per-torrent list handed
to the engine lives at a fresh ref and starts with a copy of the bootstrap
list, extended only by entries derived from the stream's own sources. -/
theorem startDownload_preserves_bootstrap (st : ListStore) (bootstrapRef : Nat)
    (sources : List String) (h : bootstrapRef < st.length) :
    storeGet (buildTorrentTrackers st bootstrapRef sources).1 bootstrapRef
      = storeGet st bootstrapRef ∧
    (buildTorrentTrackers st bootstrapRef sources).2 ≠ bootstrapRef ∧
    ∃ tail, storeGet (buildTorrentTrackers st bootstrapRef sources).1
        (buildTorrentTrackers st bootstrapRef sources).2
      = storeGet st bootstrapRef ++ tail := by
  unfold buildTorrentTrackers storeCopy
  refine ⟨?_, by simpa using Nat.ne_of_gt h, ?_⟩
  · rw [trackerLoop_preserves st.length sources _ bootstrapRef (Nat.ne_of_lt h)]
    unfold storeGet
    simp [List.getD_eq_getElem?_getD, List.getElem?_append_left h]
  · obtain ⟨-, tail, htail⟩ :=
      trackerLoop_extends st.length sources (st ++ [storeGet st bootstrapRef])
        (by simp)
    refine ⟨tail, ?_⟩
    simpa [storeGet, List.getD_eq_getElem?_getD, List.getElem?_concat_length] using htail

theorem startDownload_preserves_bootstrap_witness :
    0 < ([["udp://t1"]] : ListStore).length ∧
    (storeGet (buildTorrentTrackers [["udp://t1"]] 0
        ["tracker:udp://a", "dht:x", "udp://peer1"]).1 0
      = storeGet [["udp://t1"]] 0 ∧
    (buildTorrentTrackers [["udp://t1"]] 0 ["tracker:udp://a", "dht:x", "udp://peer1"]).2 ≠ 0 ∧
    ∃ tail, storeGet (buildTorrentTrackers [["udp://t1"]] 0
          ["tracker:udp://a", "dht:x", "udp://peer1"]).1
        (buildTorrentTrackers [["udp://t1"]] 0 ["tracker:udp://a", "dht:x", "udp://peer1"]).2
      = storeGet [["udp://t1"]] 0 ++ tail) :=
  ⟨by decide, startDownload_preserves_bootstrap [["udp://t1"]] 0
    ["tracker:udp://a", "dht:x", "udp://peer1"] (by decide)⟩

/-- C6: get_bootstrap_trackers does raise to its caller on the fetch
failures its own client produces. The except clause catches only the
curl_cffi HTTPError class, which the httpx client of streaming.py never
raises, so on a stale cache date a non-2xx response (HTTPStatusError from
raise_for_status) propagates instead of returning the cached list, and a
connection or timeout error with no cache file propagates instead of
returning the empty list; the fail-soft path fires only for the curl
class, and the no-fetch path on a matching date does hold. -/
theorem trackerCache_raises_uncaught_fetch_errors :
    httpxRaises .httpStatusError = true ∧ httpxRaises .connectError = true ∧
    httpxRaises .curlHttpError = false ∧
    (get_bootstrap_trackers (some "2026-10-11\nudp://a") "2026-10-12"
        (.error .httpStatusError)).result = .error .httpStatusError ∧
    (get_bootstrap_trackers none "2026-10-12" (.error .connectError)).result
      = .error .connectError ∧
    (get_bootstrap_trackers (some "2026-10-11\nudp://a") "2026-10-12"
        (.error .curlHttpError)).result = .ok ["udp://a"] ∧
    get_bootstrap_trackers (some "2026-10-12\nudp://a") "2026-10-12" (.error .connectError)
      = { result := .ok ["udp://a"], fileAfter := some "2026-10-12\nudp://a",
          fetchAttempted := false } := by decide

theorem getD_append_replicate {α : Type} (l : List α) (k s : Nat) (d : α) :
    (l ++ List.replicate k d).getD s d = l.getD s d := by
  simp only [List.getD_eq_getElem?_getD]
  by_cases hs : s < l.length
  · rw [List.getElem?_append_left hs]
  · rw [List.getElem?_append_right (Nat.le_of_not_lt hs), List.getElem?_replicate,
      List.getElem?_eq_none (Nat.le_of_not_lt hs)]
    by_cases h2 : s - l.length < k <;> simp [h2]

theorem gapFill_getD (seasons : List (List RawVideo)) (t : Int) (s : Nat) :
    (gapFill seasons t).getD s [] = seasons.getD s [] :=
  getD_append_replicate seasons _ s []

theorem filterStep_specials (acc : SeasonsAcc) (v : RawVideo) (hv : v.season = -1) :
    filterStep acc v
      = .ok { specials := acc.specials ++ [v], seasons := acc.seasons, hasSpecials := true } := by
  simp [filterStep, hv]

theorem filterStep_numbered (acc : SeasonsAcc) (v : RawVideo) (hv : 0 ≤ v.season) :
    ∃ acc1, filterStep acc v = .ok acc1 ∧
      acc1.specials = acc.specials ∧
      acc1.hasSpecials = acc.hasSpecials ∧
      acc1.seasons.getD v.season.toNat [] = acc.seasons.getD v.season.toNat [] ++ [v] ∧
      (∀ s : Nat, s ≠ v.season.toNat → acc1.seasons.getD s [] = acc.seasons.getD s []) ∧
      acc.seasons.length ≤ acc1.seasons.length ∧
      v.season.toNat < acc1.seasons.length := by
  have hne : ¬ (v.season - 0 = -1) := by omega
  have hlenfill : v.season.toNat + 1 ≤ (gapFill acc.seasons (v.season - 0)).length ∧
      acc.seasons.length ≤ (gapFill acc.seasons (v.season - 0)).length := by
    unfold gapFill
    simp only [List.length_append, List.length_replicate]
    omega
  have hidx : pyIndex (gapFill acc.seasons (v.season - 0)).length (v.season - 0)
      = some v.season.toNat := by
    unfold pyIndex
    rw [if_pos (by omega), if_pos (by omega)]
    congr 1
    omega
  refine ⟨⟨acc.specials, (gapFill acc.seasons (v.season - 0)).set v.season.toNat ((gapFill acc.seasons (v.season - 0)).getD v.season.toNat [] ++ [v]), acc.hasSpecials⟩, ?_, rfl, rfl, ?_, ?_, ?_, ?_⟩
  · simp only [filterStep]
    rw [if_neg hne, hidx]
  · show ((gapFill acc.seasons (v.season - 0)).set v.season.toNat _).getD v.season.toNat [] = _
    rw [List.getD_eq_getElem?_getD, List.getElem?_set_self (by omega), Option.getD_some,
      gapFill_getD]
  · intro s hs
    show ((gapFill acc.seasons (v.season - 0)).set v.season.toNat _).getD s [] = _
    rw [List.getD_eq_getElem?_getD, List.getElem?_set_ne (Ne.symm hs),
      ← List.getD_eq_getElem?_getD, gapFill_getD]
  · show acc.seasons.length ≤ (List.set _ _ _).length
    rw [List.length_set]
    exact hlenfill.2
  · show v.season.toNat < (List.set _ _ _).length
    rw [List.length_set]
    omega

theorem filterVideosAux_cons_ok {acc acc1 : SeasonsAcc} {v : RawVideo} {vs : List RawVideo}
    (h : filterStep acc v = .ok acc1) :
    filterVideosAux (v :: vs) acc = filterVideosAux vs acc1 := by
  simp [filterVideosAux, h]

theorem filterVideosAux_spec :
    ∀ (videos : List RawVideo) (acc : SeasonsAcc),
      (∀ v ∈ videos, -1 ≤ v.season) →
      ∃ acc1, filterVideosAux videos acc = .ok acc1 ∧
        acc1.specials = acc.specials ++ videos.filter (fun v => v.season == -1) ∧
        (∀ s : Nat, acc1.seasons.getD s []
          = acc.seasons.getD s [] ++ videos.filter (fun v => v.season == (s : Int))) ∧
        acc.seasons.length ≤ acc1.seasons.length ∧
        ∀ v ∈ videos, 0 ≤ v.season → v.season.toNat < acc1.seasons.length := by
  intro videos
  induction videos with
  | nil =>
    intro acc _
    exact ⟨acc, rfl, by simp, by simp, Nat.le_refl _, by simp⟩
  | cons v vs ih =>
    intro acc hall
    have hv : -1 ≤ v.season := hall v (List.mem_cons_self v vs)
    have hall2 : ∀ w ∈ vs, -1 ≤ w.season := fun w hw => hall w (List.mem_cons_of_mem v hw)
    by_cases hneg : v.season = -1
    · rw [filterVideosAux_cons_ok (filterStep_specials acc v hneg)]
      obtain ⟨acc1, haux, hspec, hbuckets, hlen, hmem⟩ :=
        ih { specials := acc.specials ++ [v], seasons := acc.seasons, hasSpecials := true } hall2
      refine ⟨acc1, haux, ?_, ?_, hlen, ?_⟩
      · rw [hspec, List.filter_cons_of_pos (by simp [hneg]), List.append_assoc]
        rfl
      · intro s
        rw [hbuckets s, List.filter_cons_of_neg (by simp [hneg])]
      · intro w hw hw0
        cases hw with
        | head => omega
        | tail _ hw2 => exact hmem w hw2 hw0
    · have hv0 : 0 ≤ v.season := by omega
      obtain ⟨accS, hstep, hSspec, -, hSat, hSne, hSlen, hSin⟩ := filterStep_numbered acc v hv0
      rw [filterVideosAux_cons_ok hstep]
      obtain ⟨acc1, haux, hspec, hbuckets, hlen, hmem⟩ := ih accS hall2
      refine ⟨acc1, haux, ?_, ?_, Nat.le_trans hSlen hlen, ?_⟩
      · rw [hspec, hSspec, List.filter_cons_of_neg (by simp [hneg])]
      · intro s
        by_cases hs : s = v.season.toNat
        · subst hs
          rw [hbuckets _, hSat, List.filter_cons_of_pos (by simp; omega), List.append_assoc]
          rfl
        · rw [hbuckets s, hSne s hs, List.filter_cons_of_neg (by simp; omega)]
      · intro w hw hw0
        cases hw with
        | head => exact Nat.lt_of_lt_of_le hSin hlen
        | tail _ hw2 => exact hmem w hw2 hw0

/-- C3: on any raw video list whose season numbers are at least minus one,
the grouping succeeds, the specials bucket holds exactly the season minus
one videos, every numbered bucket s holds exactly the season s videos (so
missing intermediate seasons are empty buckets, indices are contiguous from
zero, and every video lands in exactly one bucket), and every nonnegative
season indexes an existing bucket. -/
theorem seasons_grouping (videos : List RawVideo)
    (hseasons : ∀ v ∈ videos, -1 ≤ v.season) :
    ∃ acc, filter_videos_into_numbered_and_specials videos = .ok acc ∧
      acc.specials = videos.filter (fun v => v.season == -1) ∧
      (∀ s : Nat, acc.seasons.getD s [] = videos.filter (fun v => v.season == (s : Int))) ∧
      ∀ v ∈ videos, 0 ≤ v.season → v.season.toNat < acc.seasons.length := by
  obtain ⟨acc, haux, hspec, hbuckets, -, hmem⟩ :=
    filterVideosAux_spec videos { specials := [], seasons := [], hasSpecials := false } hseasons
  refine ⟨acc, haux, by simpa using hspec, fun s => ?_, hmem⟩
  simpa using hbuckets s

theorem seasons_grouping_witness :
    filter_videos_into_numbered_and_specials [⟨-1, "sp"⟩, ⟨0, "a"⟩, ⟨1, "b"⟩, ⟨3, "d"⟩]
      = .ok { specials := [⟨-1, "sp"⟩],
              seasons := [[⟨0, "a"⟩], [⟨1, "b"⟩], [], [⟨3, "d"⟩]],
              hasSpecials := true } ∧
    (∃ acc, filter_videos_into_numbered_and_specials
        [⟨-1, "sp"⟩, ⟨0, "a"⟩, ⟨1, "b"⟩, ⟨3, "d"⟩] = .ok acc ∧
      acc.specials = List.filter (fun v => v.season == -1)
        [⟨-1, "sp"⟩, ⟨0, "a"⟩, ⟨1, "b"⟩, ⟨3, "d"⟩] ∧
      (∀ s : Nat, acc.seasons.getD s [] = List.filter (fun v => v.season == (s : Int))
        [⟨-1, "sp"⟩, ⟨0, "a"⟩, ⟨1, "b"⟩, ⟨3, "d"⟩]) ∧
      ∀ v ∈ ([⟨-1, "sp"⟩, ⟨0, "a"⟩, ⟨1, "b"⟩, ⟨3, "d"⟩] : List RawVideo),
        0 ≤ v.season → v.season.toNat < acc.seasons.length) :=
  ⟨by decide, seasons_grouping [⟨-1, "sp"⟩, ⟨0, "a"⟩, ⟨1, "b"⟩, ⟨3, "d"⟩] (by decide)⟩

end Stremtui
